import Mathlib

/-!
Verification development for `maps.py` of the fastcam repository.

Tensors are modelled shallowly as shape-indexed total functions into the exact
rationals.  The transcendental library functions invoked by the source
(`torch.log2`, `torch.log`, `torch.exp`, `torch.erf`, the square root inside
`torch.std`) are external collaborators and are passed in as explicit function
parameters; every claim proved below holds uniformly in those parameters or is
instantiated at concrete ones.  `nn.functional.interpolate` and the torch
pooling primitives are likewise taken as parameters.  Fallible Python code
(assert failures, TypeErrors, unbound local variables) is modelled with
`Except String`.
-/

/-- epsilon constant 0.0000001 used by `maps.py` at every log/divide guard site. -/
def eps7 : ℚ := 0.0000001

/-- tensor of size [batch x channels x height x width]; `data` is total, only the
values at indices below the shape are meaningful. -/
@[ext]
structure Tensor4 where
  b : ℕ
  k : ℕ
  u : ℕ
  v : ℕ
  data : ℕ → ℕ → ℕ → ℕ → ℚ

/-- tensor of size [batch x height x width]. -/
@[ext]
structure Tensor3 where
  b : ℕ
  u : ℕ
  v : ℕ
  data : ℕ → ℕ → ℕ → ℚ

/-- tensor of size [batch x num_classes], used for classifier logits. -/
@[ext]
structure Tensor2 where
  b : ℕ
  n : ℕ
  data : ℕ → ℕ → ℚ

/-- shape of a 4D tensor. -/
def Tensor4.shape (t : Tensor4) : ℕ × ℕ × ℕ × ℕ := (t.b, t.k, t.u, t.v)

/-- shape of a 3D tensor. -/
def Tensor3.shape (t : Tensor3) : ℕ × ℕ × ℕ := (t.b, t.u, t.v)

/-- elementwise map over a 4D tensor. -/
def map4 (f : ℚ → ℚ) (t : Tensor4) : Tensor4 :=
  { t with data := fun bi ki i j => f (t.data bi ki i j) }

/-- elementwise map over a 3D tensor. -/
def map3 (f : ℚ → ℚ) (t : Tensor3) : Tensor3 :=
  { t with data := fun bi i j => f (t.data bi i j) }

/-- F.relu on a 4D tensor. -/
def relu4 (t : Tensor4) : Tensor4 := map4 (fun x => max x 0) t

/-- F.relu on a 3D tensor. -/
def relu3 (t : Tensor3) : Tensor3 := map3 (fun x => max x 0) t

/-- scalar multiple of a 4D tensor (`t * c`). -/
def scal4 (c : ℚ) (t : Tensor4) : Tensor4 := map4 (fun x => c * x) t

/-- scalar multiple of a 3D tensor. -/
def scal3 (c : ℚ) (t : Tensor3) : Tensor3 := map3 (fun x => c * x) t

/-- elementwise sum of two 4D tensors (shape taken from the first). -/
def add4 (s t : Tensor4) : Tensor4 :=
  { s with data := fun bi ki i j => s.data bi ki i j + t.data bi ki i j }

/-- elementwise sum of two 3D tensors (shape taken from the first). -/
def add3 (s t : Tensor3) : Tensor3 :=
  { s with data := fun bi i j => s.data bi i j + t.data bi i j }

/-- elementwise negation of a 3D tensor. -/
def neg3 (s : Tensor3) : Tensor3 :=
  { s with data := fun bi i j => -(s.data bi i j) }

/-- torch.sign on rationals. -/
def qsign (x : ℚ) : ℚ := if x < 0 then -1 else if 0 < x then 1 else 0

/-- torch.mean(x, dim=1): collapse the channel axis to the channel mean. -/
def meanDim1 (t : Tensor4) : Tensor3 :=
  { b := t.b, u := t.u, v := t.v,
    data := fun bi i j => (∑ ki in Finset.range t.k, t.data bi ki i j) / (t.k : ℚ) }

/-- decidable success test for `Except`. -/
def exOk {α : Type} (e : Except String α) : Bool :=
  match e with
  | .ok _ => true
  | .error _ => false

/-- SMOEScaleMap.forward (maps.py 86-111) with the default run_relu=False, so no
internal rectifier: shift by 1e-7, take the channel mean m, k = log2 m minus the
channel mean of log2, return k * m.  `log2q` models torch.log2. -/
def smoeForward (log2q : ℚ → ℚ) (x : Tensor4) : Tensor3 :=
  let xs := map4 (fun a => a + eps7) x
  let m := meanDim1 xs
  let l := meanDim1 (map4 log2q xs)
  { b := x.b, u := x.u, v := x.v,
    data := fun bi i j => (log2q (m.data bi i j) - l.data bi i j) * m.data bi i j }

/-- the spec sentence for SMOE Scale, written per spatial location: over the channel
slice at one location, shift by 1e-7, take the channel mean, set
k = log2(mean) - mean(log2 x), and return k * mean. -/
def smoeSpecAt (log2q : ℚ → ℚ) (x : Tensor4) (bi i j : ℕ) : ℚ :=
  let xs : ℕ → ℚ := fun ki => x.data bi ki i j + eps7
  let m : ℚ := (∑ ki in Finset.range x.k, xs ki) / (x.k : ℚ)
  (log2q m - (∑ ki in Finset.range x.k, log2q (xs ki)) / (x.k : ℚ)) * m

/-- constant 1/sqrt(2 pi) from TruncNormalEntMap.__init__. -/
def tn_c1 : ℚ := 0.3989422804014327

/-- constant sqrt(2) from TruncNormalEntMap.__init__. -/
def tn_c2 : ℚ := 1.4142135623730951

/-- constant sqrt(2 pi e) from TruncNormalEntMap.__init__. -/
def tn_c3 : ℚ := 4.1327313541224930

/-- TruncNormalEntMap._compute_alpha with the default truncation point a=0. -/
def compute_alpha (mean std : ℚ) : ℚ := (0 - mean) / std

/-- TruncNormalEntMap._compute_pdf; `expq` models torch.exp. -/
def compute_pdf (expq : ℚ → ℚ) (eta : ℚ) : ℚ := tn_c1 * expq (-0.5 * eta ^ 2)

/-- TruncNormalEntMap._compute_cdf; `erfq` models torch.erf. -/
def compute_cdf (erfq : ℚ → ℚ) (eta : ℚ) : ℚ := 0.5 * (1 + erfq (eta / tn_c2))

/-- intermediate quantities of TruncNormalEntMap.forward at one spatial location,
one field per source line. `t1arg` is the argument handed to torch.log in T1 and
`t2denom` is the denominator of T2. -/
structure TruncOut where
  m : ℚ
  s : ℚ
  alpha : ℚ
  pdf : ℚ
  cdf : ℚ
  z : ℚ
  t1arg : ℚ
  t2denom : ℚ
  ent : ℚ

/-- TruncNormalEntMap.forward (maps.py 227-242) at one spatial location whose
channel values are xs 0 .. xs (k-1).  torch.std uses the unbiased estimator
(division by k-1); `sqrtq` models the square root inside it and `logq` models
torch.log.  Note line 236: the 1e-7 is added to the CDF itself, after which
Z = 1 - cdf. -/
def truncForwardAt (sqrtq expq erfq logq : ℚ → ℚ) (k : ℕ) (xs : ℕ → ℚ) : TruncOut :=
  let m := (∑ ki in Finset.range k, xs ki) / (k : ℚ)
  let s := sqrtq ((∑ ki in Finset.range k, (xs ki - m) ^ 2) / ((k : ℚ) - 1))
  let a := compute_alpha m s
  let pdf := compute_pdf expq a
  let cdf := compute_cdf erfq a + eps7
  let z := 1 - cdf
  { m := m, s := s, alpha := a, pdf := pdf, cdf := cdf, z := z,
    t1arg := tn_c3 * s * z,
    t2denom := 2 * z,
    ent := logq (tn_c3 * s * z) + (a * pdf) / (2 * z) }

/-- TruncNormalEntMap.forward on a full 4D tensor: the per-location computation
applied at every batch/spatial index (mean and std are taken over dim=1). -/
def truncNormalForward (sqrtq expq erfq logq : ℚ → ℚ) (x : Tensor4) : Tensor3 :=
  { b := x.b, u := x.u, v := x.v,
    data := fun bi i j =>
      (truncForwardAt sqrtq expq erfq logq x.k (fun ki => x.data bi ki i j)).ent }

/-- the epsilon placement stated by the spec, for comparison with the source:
1e-7 added to the quantity (1-CDF) itself, so the guarded quantity stays
at least 1e-7 whenever the raw CDF is at most one. -/
def truncZSpec (cdfRaw : ℚ) : ℚ := (1 - cdfRaw) + eps7

/-- the three admissible forms of the `weights` argument of
CombineSaliencyMaps.__init__: Python None, a bare scalar, or a list. -/
inductive PyWeights where
  | noneW : PyWeights
  | scalar : ℚ → PyWeights
  | list : List ℚ → PyWeights

/-- configuration stored by a successfully constructed CombineSaliencyMaps,
including the weight sum precomputed at construction (maps.py 283-292). -/
structure CombineCfg where
  weights : List ℚ
  weight_sum : ℚ
  map_num : ℕ
  out_h : ℕ
  out_w : ℕ
  resize_mode : String
  magnitude : Bool
  do_relu : Bool

/-- CombineSaliencyMaps.__init__ (maps.py 257-292).  The weights dispatch is kept
exactly as written: `len(weights)` on a bare Python scalar raises a TypeError, and
the length-one branch executes `assert weights > 0` which compares the list itself
against an int, another TypeError; only None and lists of length equal to map_num
(and different from one) construct successfully. -/
def combineInit (output_size : List ℕ) (map_num : ℕ) (weights : PyWeights)
    (resize_mode : String) (magnitude : Bool) (do_relu : Bool) :
    Except String CombineCfg :=
  match output_size with
  | [oh, ow] =>
    if 0 < oh ∧ 0 < ow ∧ 0 < map_num then
      match weights with
      | .noneW =>
        let ws := List.replicate map_num (1 : ℚ)
        .ok ⟨ws, ws.foldl (· + ·) 0, map_num, oh, ow, resize_mode, magnitude, do_relu⟩
      | .scalar _ => .error "TypeError: object of type float has no len()"
      | .list ws =>
        if ws.length = 1 then
          .error "TypeError: not supported between instances of list and int"
        else if ws.length = map_num then
          .ok ⟨ws, ws.foldl (· + ·) 0, map_num, oh, ow, resize_mode, magnitude, do_relu⟩
        else .error "AssertionError: len(weights) == map_num"
    else .error "AssertionError"
  | _ => .error "AssertionError: output_size"

/-- type of the model of nn.functional.interpolate as used by the combiner: the
resize mode, the source spatial size, the target spatial size and one 2D batch
slice, giving the resized slice. -/
def Interp : Type := String → ℕ × ℕ → ℕ × ℕ → (ℕ → ℕ → ℚ) → (ℕ → ℕ → ℚ)

/-- per-map processing in the combiner loop (maps.py 312-328): add a singleton
channel axis, resize to output_size with the configured mode, and square
elementwise when magnitude mode is on. -/
def resizeAndSquare (cfg : CombineCfg) (interp : Interp) (s : Tensor3) : Tensor3 :=
  let r : Tensor3 := ⟨s.b, cfg.out_h, cfg.out_w,
    fun bi => interp cfg.resize_mode (s.u, s.v) (cfg.out_h, cfg.out_w) (s.data bi)⟩
  if cfg.magnitude then ⟨r.b, r.u, r.v, fun bi i j => r.data bi i j * r.data bi i j⟩
  else r

/-- CombineSaliencyMaps.forward (maps.py 294-340): resize (and optionally square)
each map, accumulate the weighted sum, divide by the precomputed weight sum,
stack the individual resized maps along a new axis, and optionally rectify. -/
def combineForward (cfg : CombineCfg) (interp : Interp) (smaps : List Tensor3) :
    Except String (Tensor3 × Tensor4) :=
  if smaps.length = cfg.map_num then
    match smaps with
    | [] => .error "IndexError: list index out of range"
    | s0 :: _ =>
      let bn := s0.b
      let ww := smaps.map (resizeAndSquare cfg interp)
      let wpairs := ww.zip cfg.weights
      let cm : Tensor3 := ⟨bn, cfg.out_h, cfg.out_w,
        fun bi i j =>
          (wpairs.foldl (fun acc p => acc + p.1.data bi i j * p.2) 0) / cfg.weight_sum⟩
      let stacked : Tensor4 := ⟨bn, cfg.map_num, cfg.out_h, cfg.out_w,
        fun bi ki => (ww.getD ki ⟨0, 0, 0, fun _ _ _ => 0⟩).data bi⟩
      if cfg.do_relu then .ok (relu3 cm, relu4 stacked) else .ok (cm, stacked)
  else .error "AssertionError: len(smaps) == self.map_num"

/-- normalizer strategies selectable by FastCAM.__init__ (maps.py 456-460); the
implementations live in the external norm module. -/
inductive NormChoice where
  | gammaNorm2D : NormChoice
  | normalize2D : NormChoice
deriving DecidableEq

/-- normalizer selection at construction (maps.py 456-460): GammaNorm2D unless
pos_neg_map is set, Normalize2D otherwise. -/
def normChoice (pos_neg_map : Bool) : NormChoice :=
  if pos_neg_map then .normalize2D else .gammaNorm2D

/-- Modelled from the spec: the Normalizer collaborators norm.GammaNorm2D and
norm.Normalize2D are code of this repository that is not under src/.  The spec
describes the Normalizer contract as rescaling a raw map into a bounded,
comparable range; gamma normalization produces a gamma-CDF probability value,
bounded in [0,1], while the plain normalization used for signed pos/neg maps
recenters to a signed, unbounded range.  We record each strategy's declared
output range as a set of rationals. -/
def declaredRange : NormChoice → Set ℚ
  | .gammaNorm2D => Set.Icc 0 1
  | .normalize2D => Set.univ

/-- construction options of FastCAM fixed at __init__ (maps.py 438-452). -/
structure FastCAMCfg where
  method : String
  use_gpp : Bool
  grad_pooling : Option String
  pos_neg_map : Bool

/-- forward-capture capability flag: set at __init__ (maps.py 453, 468-469),
cleared only for method V5. -/
def FastCAMCfg.fwdCapture (cfg : FastCAMCfg) : Bool := !(cfg.method == "V5")

/-- backward-capture capability flag: set at __init__ (maps.py 454, 466-467),
cleared only for method V0; with it cleared no gradient hooks are registered,
so the loop-local gradients variable is never assigned. -/
def FastCAMCfg.bwdCapture (cfg : FastCAMCfg) : Bool := !(cfg.method == "V0")

/-- external torch collaborators used by FastCAM.__call__: torch.log2 inside the
SMOE estimator, the normalizer application, the 2x2 stride-2 pooling primitives
and nearest-neighbour interpolation back to a given spatial size. -/
structure TorchEnv where
  log2q : ℚ → ℚ
  normApply : NormChoice → Tensor3 → Tensor3
  poolAvg : Tensor4 → Tensor4
  poolMax : Tensor4 → Tensor4
  interpNearest : Tensor4 → ℕ × ℕ → Tensor4

/-- FastCAM._magnitude_pool2d (maps.py 502-520) with pos_max=False as at its one
call site: per window keep the pooled value whose signed sum dominates, then
upsample back to the original resolution. -/
def magnitudePool (env : TorchEnv) (x : Tensor4) : Tensor4 :=
  let p1 := env.poolMax x
  let p2 := scal4 (-1) (env.poolMax (scal4 (-1) x))
  let d := add4 p1 p2
  let m : Tensor4 := ⟨p1.b, p1.k, p1.u, p1.v,
    fun bi ki i j => if 0 ≤ d.data bi ki i j then p1.data bi ki i j
      else p2.data bi ki i j⟩
  env.interpNearest m (x.u, x.v)

/-- gradient pooling dispatch (maps.py 561-570): avg or max pool then nearest
upsample, or magnitude pooling, or pass through. -/
def poolGradients (env : TorchEnv) (gp : Option String) (g : Tensor4) : Tensor4 :=
  if gp = some "avg" then env.interpNearest (env.poolAvg g) (g.u, g.v)
  else if gp = some "max" then env.interpNearest (env.poolMax g) (g.u, g.v)
  else if gp = some "mag" then magnitudePool env g
  else g

/-- gradients.view(b, k, -1).mean(2): the per-batch, per-channel spatial mean. -/
def meanUV (g : Tensor4) : ℕ → ℕ → ℚ := fun bi ki =>
  (∑ i in Finset.range g.u, ∑ j in Finset.range g.v, g.data bi ki i j)
    / ((g.u : ℚ) * (g.v : ℚ))

/-- broadcast multiply of a (b, k, 1, 1) weight against a 4D tensor. -/
def mulBK (w : ℕ → ℕ → ℚ) (a : Tensor4) : Tensor4 :=
  ⟨a.b, a.k, a.u, a.v, fun bi ki i j => w bi ki * a.data bi ki i j⟩

/-- GradCAM++ second-order correction (maps.py 589-600): alpha from second and
third gradient powers plus the per-channel activation-gradient cross term, the
denominator guarded by 1e-7, multiplied into the rectified gradients. -/
def gppAdjust (g a : Tensor4) : Tensor4 :=
  let crossSum : ℕ → ℕ → ℚ := fun bi ki =>
    ∑ i in Finset.range g.u, ∑ j in Finset.range g.v,
      a.data bi ki i j * g.data bi ki i j ^ 3
  ⟨g.b, g.k, g.u, g.v, fun bi ki i j =>
    let gg := g.data bi ki i j
    (gg ^ 2 / (gg ^ 2 * 2 + crossSum bi ki + eps7)) * max gg 0⟩

/-- Tensor.view(b, u, v) on a 3D tensor: identity when the shape already matches,
a flat reindexing when only the element count matches, and the torch
RuntimeError otherwise. -/
def view3 (t : Tensor3) (b u v : ℕ) : Except String Tensor3 :=
  if t.b = b ∧ t.u = u ∧ t.v = v then .ok ⟨b, u, v, t.data⟩
  else if t.b * t.u * t.v = b * u * v then
    .ok ⟨b, u, v, fun bi i j =>
      let flat := bi * (u * v) + i * v + j
      t.data (flat / (t.u * t.v)) (flat % (t.u * t.v) / t.v) (flat % t.v)⟩
  else .error "RuntimeError: view size mismatch"

/-- per-variant saliency construction (maps.py 602-632).  The option arguments
mirror the Python loop locals: gradients and activations are bound only when the
corresponding capture flag was active, and touching an unbound one raises.  An
unsupported method string leaves saliency_map unassigned, which also raises. -/
def variantSaliency (method : String) (gOpt aOpt : Option Tensor4) :
    Except String Tensor4 :=
  if method == "V0" then
    match aOpt with
    | some a => .ok a
    | none => .error "UnboundLocalError: local variable activations referenced before assignment"
  else if method == "V1" then
    match gOpt, aOpt with
    | some g, some a => .ok (mulBK (fun bi ki => qsign (meanUV g bi ki)) a)
    | _, _ => .error "UnboundLocalError: V1"
  else if method == "V2" then
    match gOpt, aOpt with
    | some g, some a => .ok (mulBK (meanUV g) a)
    | _, _ => .error "UnboundLocalError: V2"
  else if method == "V3" then
    match gOpt, aOpt with
    | some g, some a =>
      .ok ⟨a.b, a.k, a.u, a.v, fun bi ki i j => qsign (g.data bi ki i j) * a.data bi ki i j⟩
    | _, _ => .error "UnboundLocalError: V3"
  else if method == "V4" then
    match gOpt, aOpt with
    | some g, some a =>
      .ok ⟨a.b, a.k, a.u, a.v, fun bi ki i j => g.data bi ki i j * a.data bi ki i j⟩
    | _, _ => .error "UnboundLocalError: V4"
  else if method == "V5" then
    match gOpt with
    | some g => .ok g
    | none => .error "UnboundLocalError: local variable gradients referenced before assignment"
  else if method == "V6" then
    match gOpt with
    | some g => .ok (map4 qsign g)
    | none => .error "UnboundLocalError: local variable gradients referenced before assignment"
  else .error "UnboundLocalError: local variable saliency_map referenced before assignment"

/-- final per-layer map production (maps.py 649-661): with pos_neg_map off,
rectify then estimate then normalize; with it on, estimate the positive branch
and the negated-then-rectified negative branch separately, negate the latter,
sum, normalize once; in both modes reshape to (b, u, v). -/
def finalizeMap (pos_neg_map : Bool) (log2q : ℚ → ℚ) (normFn : Tensor3 → Tensor3)
    (smap : Tensor4) (b u v : ℕ) : Except String Tensor3 :=
  if !pos_neg_map then
    view3 (normFn (smoeForward log2q (relu4 smap))) b u v
  else
    let s1 := smoeForward log2q (relu4 smap)
    let s2 := scal3 (-1) (smoeForward log2q (relu4 (scal4 (-1) smap)))
    view3 (normFn (add3 s1 s2)) b u v

/-- one iteration of the layer loop of FastCAM.__call__ (maps.py 549-663).
`gradHook` and `actHook` are the tensors stored by this layer's capture hooks;
the loop locals gradients/activations are bound only when the corresponding
capture flag is active.  The b,k,u,v used by the final view come from the
activations when forward capture is active (they are assigned second),
otherwise from the gradients. -/
def layerSaliency (cfg : FastCAMCfg) (env : TorchEnv) (invert : Bool)
    (gradHook actHook : Tensor4) : Except String Tensor4 := do
  let gOpt : Option Tensor4 :=
    if cfg.bwdCapture then some (poolGradients env cfg.grad_pooling gradHook) else none
  let aOpt : Option Tensor4 :=
    if cfg.fwdCapture then some (relu4 actHook) else none
  let gOpt ←
    if invert then
      match gOpt with
      | some g => pure (some (scal4 (-1) g))
      | none =>
        Except.error "UnboundLocalError: local variable gradients referenced before assignment"
    else pure gOpt
  let gOpt :=
    if cfg.use_gpp && cfg.bwdCapture && cfg.fwdCapture then
      match gOpt, aOpt with
      | some g, some a => some (gppAdjust g a)
      | _, _ => gOpt
    else gOpt
  variantSaliency cfg.method gOpt aOpt

/-- the remainder of one loop iteration: the per-variant saliency tensor is fed
to the final map production, with the view dimensions taken from the
activations when forward capture is active, otherwise from the gradients. -/
def processLayer (cfg : FastCAMCfg) (env : TorchEnv) (invert : Bool)
    (gradHook actHook : Tensor4) : Except String Tensor3 :=
  let dims : ℕ × ℕ × ℕ :=
    if cfg.fwdCapture then (actHook.b, actHook.u, actHook.v)
    else (gradHook.b, gradHook.u, gradHook.v)
  layerSaliency cfg env invert gradHook actHook >>= fun smap =>
    finalizeMap cfg.pos_neg_map env.log2q (env.normApply (normChoice cfg.pos_neg_map))
      smap dims.1 dims.2.1 dims.2.2

/-- FastCAM.__call__ (maps.py 522-665).  The frozen classifier is external: its
logits and the per-layer hook captures enter as parameters (class_idx and
retain_graph only steer the external backward pass, so they do not appear).
The batch dispatch at maps.py 542-545 calls _forward_bsize_N with three
arguments although its definition (maps.py 498-500) accepts none, so any batch
size other than one raises a TypeError before any saliency map is produced.
On success the result is the list of per-layer maps and the logits: FastCAM has
no combiner and performs no resizing to a common output size. -/
def fastCAMCall (cfg : FastCAMCfg) (env : TorchEnv) (numLayers : ℕ)
    (actHooks gradHooks : ℕ → Tensor4) (logit : Tensor2) (inputB : ℕ)
    (invert : Bool) : Except String (List Tensor3 × Tensor2) :=
  if inputB = 1 then do
    let maps ← (List.range numLayers).mapM
      (fun i => processLayer cfg env invert (gradHooks i) (actHooks i))
    pure (maps, logit)
  else
    .error "TypeError: _forward_bsize_N() takes 1 positional argument but 4 were given"

/-- concrete instantiation of the external torch collaborators used by witnesses
and counterexamples: log2 constantly zero, the normalizer the identity, the
pooling primitives and the interpolation the identity. -/
def idEnv : TorchEnv :=
  ⟨fun _ => 0, fun _ t => t, fun t => t, fun t => t, fun t _ => t⟩

/-- concrete identity instantiation of the combiner resize collaborator. -/
def idInterp : Interp := fun _ _ _ d => d

/-- concrete all-ones 4D tensor of a given shape. -/
def onesT4 (b k u v : ℕ) : Tensor4 := ⟨b, k, u, v, fun _ _ _ _ => 1⟩

/-- concrete all-ones 3D tensor of a given shape. -/
def onesT3 (b u v : ℕ) : Tensor3 := ⟨b, u, v, fun _ _ _ => 1⟩

/-- concrete torch collaborators whose normalizer returns a fixed 1x1x1 map,
used to exhibit a fully explicit normalized per-layer output. -/
def constNormEnv : TorchEnv :=
  ⟨fun _ => 0, fun _ _ => onesT3 1 1 1, fun t => t, fun t => t, fun t _ => t⟩

/-- reduction of an Except bind whose first component errored. -/
theorem except_error_bind {α β : Type} (e : String) (f : α → Except String β) :
    ((Except.error e : Except String α) >>= f) = Except.error e := rfl

/-- reduction of an Except bind whose first component succeeded. -/
theorem except_ok_bind {α β : Type} (a : α) (f : α → Except String β) :
    ((Except.ok a : Except String α) >>= f) = f a := rfl

/-- reduction of an Except bind whose first component is a pure value. -/
theorem except_pure_bind {α β : Type} (a : α) (f : α → Except String β) :
    ((pure a : Except String α) >>= f) = f a := rfl

/-- inversion of a successful Except bind. -/
theorem except_bind_eq_ok {α β : Type} {e : Except String α}
    {f : α → Except String β} {b : β} (h : e >>= f = .ok b) :
    ∃ a, e = .ok a ∧ f a = .ok b := by
  cases e with
  | error s =>
    rw [except_error_bind] at h
    exact absurd h (by simp)
  | ok a =>
    rw [except_ok_bind] at h
    exact ⟨a, rfl, h⟩

/-- mapM over Except succeeds elementwise: if every element maps to a success
satisfying a relation, the whole list does, preserving length and the relation
pointwise. -/
theorem mapM_ok_exists {α β : Type} (f : α → Except String β) (l : List α)
    (P : α → β → Prop) (h : ∀ a ∈ l, ∃ b, f a = .ok b ∧ P a b) :
    ∃ bs : List β, l.mapM f = .ok bs ∧ bs.length = l.length
      ∧ ∀ i (hi : i < l.length) (hbi : i < bs.length),
          P (l.get ⟨i, hi⟩) (bs.get ⟨i, hbi⟩) := by
  induction l with
  | nil => exact ⟨[], rfl, rfl, fun i hi _ => absurd hi (Nat.not_lt_zero i)⟩
  | cons a t ih =>
    obtain ⟨b, hfb, hPb⟩ := h a (List.mem_cons_self a t)
    obtain ⟨bs, hbs, hlen, hP⟩ := ih (fun x hx => h x (List.mem_cons_of_mem a hx))
    refine ⟨b :: bs, ?_, by simp [hlen], ?_⟩
    · rw [List.mapM_cons, hfb, except_ok_bind, hbs]
      rfl
    · intro i hi hbi
      cases i with
      | zero => simpa using hPb
      | succ i2 =>
        simpa using hP i2 (by simpa using hi) (by simpa using hbi)

/-- C1: the claim states that 1e-7 is added to (1-CDF) before it is used as the
log argument of T1 and the denominator of T2, guarding both against the CDF
approaching one.  In the source (maps.py 236-237) the epsilon is instead added
to the CDF itself, so the code computes Z = (1-CDF) - 1e-7: at raw CDF equal to
1 - 1e-7 (stored cdf equal to one) the T2 denominator is exactly zero and the T1
log argument is exactly zero, an unguarded singularity; the placement the spec
states would keep the guarded quantity at least 1e-7 for every CDF at most one. -/
theorem trunc_entropy_eps_misplaced :
    (∀ sq ex er lg : ℚ → ℚ, ∀ k : ℕ, ∀ xs : ℕ → ℚ,
        (truncForwardAt sq ex er lg k xs).z
          = (1 - compute_cdf er (truncForwardAt sq ex er lg k xs).alpha) - eps7)
    ∧ (∀ sq ex er lg : ℚ → ℚ, ∀ k : ℕ, ∀ xs : ℕ → ℚ,
        (truncForwardAt sq ex er lg k xs).cdf = 1 →
          (truncForwardAt sq ex er lg k xs).t2denom = 0
            ∧ (truncForwardAt sq ex er lg k xs).t1arg = 0)
    ∧ (∀ c : ℚ, c ≤ 1 → eps7 ≤ truncZSpec c) := by
  refine ⟨?_, ?_, ?_⟩
  · intro sq ex er lg k xs
    have h1 : (truncForwardAt sq ex er lg k xs).z
        = 1 - (compute_cdf er (truncForwardAt sq ex er lg k xs).alpha + eps7) := rfl
    rw [h1]
    ring
  · intro sq ex er lg k xs h
    have hz0 : (truncForwardAt sq ex er lg k xs).z = 0 := by
      have h2 : (truncForwardAt sq ex er lg k xs).z
          = 1 - (truncForwardAt sq ex er lg k xs).cdf := rfl
      rw [h2, h]
      ring
    constructor
    · have h3 : (truncForwardAt sq ex er lg k xs).t2denom
          = 2 * (truncForwardAt sq ex er lg k xs).z := rfl
      rw [h3, hz0]
      ring
    · have h4 : (truncForwardAt sq ex er lg k xs).t1arg
          = tn_c3 * (truncForwardAt sq ex er lg k xs).s
            * (truncForwardAt sq ex er lg k xs).z := rfl
      rw [h4, hz0]
      ring
  · intro c hc
    simp only [truncZSpec]
    linarith

/-- C1 witness: a concrete erf model and channel vector whose stored cdf is
exactly one; there the T2 denominator and T1 log argument both vanish. -/
theorem trunc_entropy_eps_misplaced_witness :
    (truncForwardAt (fun _ => 1) (fun q => q) (fun _ => 1 - 2 * eps7) (fun _ => 0) 2
        (fun _ => 0)).t2denom = 0
      ∧ (truncForwardAt (fun _ => 1) (fun q => q) (fun _ => 1 - 2 * eps7) (fun _ => 0) 2
        (fun _ => 0)).t1arg = 0 :=
  trunc_entropy_eps_misplaced.2.1 (fun _ => 1) (fun q => q) (fun _ => 1 - 2 * eps7)
    (fun _ => 0) 2 (fun _ => 0) (by
      norm_num [truncForwardAt, compute_cdf, compute_alpha, eps7, tn_c2,
        Finset.sum_range_succ])

/-- C2: the claim states that a bare scalar weight is broadcast to all maps at
construction.  In the source (maps.py 276) the scalar reaches len(weights),
which raises a TypeError for a Python float, so construction fails instead of
broadcasting. -/
theorem combine_scalar_weight_type_error :
    combineInit [224, 224] 3 (PyWeights.scalar 2) "bilinear" false false
      = .error "TypeError: object of type float has no len()" := rfl

/-- C3: the claim states that construction with map_num=1 and weights=[1.0]
succeeds.  In the source the length-one list takes the broadcast branch whose
assert (maps.py 277) compares the list itself against an int, raising a
TypeError, so construction fails. -/
theorem combine_unit_list_weight_type_error :
    combineInit [224, 224] 1 (PyWeights.list [1]) "bilinear" false false
      = .error "TypeError: not supported between instances of list and int" := rfl

/-- C4 counterexample: an explicit weight list summing to zero is accepted at
construction with weight_sum 0, and forward still returns a result instead of
raising, contradicting the claim that a zero weight sum makes the process fail. -/
theorem combine_zero_weight_sum_accepted :
    ((combineInit [1, 1] 2 (PyWeights.list [0, 0]) "bilinear" false false).toOption.map
        (fun cfg => (cfg.weight_sum,
          exOk (combineForward cfg idInterp [onesT3 1 1 1, onesT3 1 1 1]))))
      = some (0, true) := by
  norm_num [combineInit, combineForward, exOk, Except.toOption, List.foldl]

/-- C4 (amended): the weight sum is precomputed at construction and used as the
normalizing denominator, but nothing checks it is nonzero.  With weights None
the sum equals map_num, which is positive; an explicit list summing to zero is
accepted and the forward pass divides by the zero sum without raising. -/
theorem combine_weight_sum_unchecked :
    (∀ n : ℕ, 0 < n →
        (combineInit [1, 1] n PyWeights.noneW "bilinear" false false).toOption.map
            CombineCfg.weight_sum = some (n : ℚ))
    ∧ ((combineInit [1, 1] 2 (PyWeights.list [0, 0]) "bilinear" false false).toOption.map
        (fun cfg => exOk (combineForward cfg idInterp [onesT3 1 1 1, onesT3 1 1 1])))
      = some true := by
  constructor
  · intro n hn
    have hrep : ∀ (m : ℕ) (c : ℚ), List.foldl (· + ·) c (List.replicate m 1) = c + m := by
      intro m
      induction m with
      | zero => intro c; simp
      | succ m2 ih =>
        intro c
        rw [List.replicate_succ, List.foldl_cons, ih]
        push_cast
        ring
    have hsum : (List.replicate n (1 : ℚ)).foldl (· + ·) 0 = (n : ℚ) := by
      rw [hrep n 0]
      ring
    have hcond : 0 < 1 ∧ 0 < 1 ∧ 0 < n := ⟨one_pos, one_pos, hn⟩
    simp [combineInit, hcond, Except.toOption, hsum]
  · norm_num [combineInit, combineForward, exOk, Except.toOption, List.foldl]

/-- C4 witness: the None branch at map_num 3 records weight sum 3. -/
theorem combine_weight_sum_unchecked_witness :
    (combineInit [1, 1] 3 PyWeights.noneW "bilinear" false false).toOption.map
        CombineCfg.weight_sum = some ((3 : ℕ) : ℚ) :=
  combine_weight_sum_unchecked.1 3 (by decide)

/-- C5: for every non-negative 4D input, SMOE-Scale returns the 3D map (channel
axis removed) whose every entry is the per-location value k * mean with the
input shifted by 1e-7, mean the channel mean and k = log2(mean) - mean(log2 x);
the shifted entries and the channel means, the only arguments ever passed to
log2, are all strictly positive, so with the real log2 the output is finite
everywhere. -/
theorem smoe_scale_shape_finite (log2q : ℚ → ℚ) (x : Tensor4) (hk : 0 < x.k)
    (hx : ∀ bi ki i j : ℕ, 0 ≤ x.data bi ki i j) :
    (smoeForward log2q x).shape = (x.b, x.u, x.v)
    ∧ (∀ bi i j : ℕ, (smoeForward log2q x).data bi i j = smoeSpecAt log2q x bi i j)
    ∧ (∀ bi ki i j : ℕ, 0 < x.data bi ki i j + eps7)
    ∧ (∀ bi i j : ℕ,
        0 < (meanDim1 (map4 (fun a => a + eps7) x)).data bi i j) := by
  have heps : (0 : ℚ) < eps7 := by norm_num [eps7]
  have hpos : ∀ bi ki i j : ℕ, 0 < x.data bi ki i j + eps7 := by
    intro bi ki i j
    have := hx bi ki i j
    linarith
  refine ⟨rfl, ?_, hpos, ?_⟩
  · intro bi i j
    rfl
  · intro bi i j
    show 0 < (∑ ki in Finset.range x.k, (x.data bi ki i j + eps7)) / (x.k : ℚ)
    apply div_pos
    · apply Finset.sum_pos
      · intro ki _
        exact hpos bi ki i j
      · exact Finset.nonempty_range_iff.mpr (Nat.pos_iff_ne_zero.mp hk)
    · exact_mod_cast hk

/-- C5 witness: the all-ones 1x1x1x1 tensor with a concrete log2 model. -/
theorem smoe_scale_shape_finite_witness :
    (smoeForward (fun _ => 0) (onesT4 1 1 1 1)).shape = (1, 1, 1)
    ∧ (∀ bi i j : ℕ, (smoeForward (fun _ => 0) (onesT4 1 1 1 1)).data bi i j
        = smoeSpecAt (fun _ => 0) (onesT4 1 1 1 1) bi i j)
    ∧ (∀ bi ki i j : ℕ, 0 < (onesT4 1 1 1 1).data bi ki i j + eps7)
    ∧ (∀ bi i j : ℕ,
        0 < (meanDim1 (map4 (fun a => a + eps7) (onesT4 1 1 1 1))).data bi i j) :=
  smoe_scale_shape_finite (fun _ => 0) (onesT4 1 1 1 1) (by decide)
    (fun _ _ _ _ => by norm_num [onesT4])

/-- C6: with magnitude mode on, combining the elementwise negations of the maps
gives exactly the same output as combining the maps themselves, for every
interpolation model that commutes with negation (bilinear interpolation is
linear, hence odd): the squaring after the resize erases the sign. -/
theorem combine_magnitude_sign_invariance (cfg : CombineCfg) (interp : Interp)
    (smaps : List Tensor3) (hmag : cfg.magnitude = true)
    (hodd : ∀ (mode : String) (src dst : ℕ × ℕ) (d : ℕ → ℕ → ℚ),
      interp mode src dst (fun i j => -(d i j)) = fun i j => -(interp mode src dst d i j)) :
    combineForward cfg interp (smaps.map neg3) = combineForward cfg interp smaps := by
  have hproc : ∀ s : Tensor3,
      resizeAndSquare cfg interp (neg3 s) = resizeAndSquare cfg interp s := by
    intro s
    simp only [resizeAndSquare, neg3, hmag, if_true]
    congr 1
    funext bi i j
    have h := congrFun (congrFun
      (hodd cfg.resize_mode (s.u, s.v) (cfg.out_h, cfg.out_w) (s.data bi)) i) j
    simp only at h
    rw [h]
    ring
  cases smaps with
  | nil => rfl
  | cons s0 t =>
    have htail : List.map (resizeAndSquare cfg interp) (List.map neg3 t)
        = List.map (resizeAndSquare cfg interp) t := by
      rw [List.map_map]
      exact List.map_congr_left (fun s _ => hproc s)
    have hproc2 : resizeAndSquare cfg interp
        ⟨s0.b, s0.u, s0.v, fun bi i j => -(s0.data bi i j)⟩
        = resizeAndSquare cfg interp s0 := hproc s0
    simp only [combineForward, List.map_cons, List.length_cons, List.length_map,
      neg3, hproc2, htail]

/-- C6 witness: a concrete magnitude-mode configuration, the identity resize
model (odd) and a concrete map list. -/
theorem combine_magnitude_sign_invariance_witness :
    combineForward ⟨[1], 1, 1, 2, 2, "bilinear", true, false⟩ idInterp
        ([onesT3 1 1 1].map neg3)
      = combineForward ⟨[1], 1, 1, 2, 2, "bilinear", true, false⟩ idInterp
        [onesT3 1 1 1] :=
  combine_magnitude_sign_invariance ⟨[1], 1, 1, 2, 2, "bilinear", true, false⟩
    idInterp [onesT3 1 1 1] rfl (fun _ _ _ _ => rfl)

/-- C7: any call with batch size different from one reaches the batched branch
(maps.py 545), whose call to _forward_bsize_N passes three arguments to a
method accepting none, so the call raises a TypeError deterministically before
any saliency map is produced. -/
theorem fastcam_batch_gt_one_raises (cfg : FastCAMCfg) (env : TorchEnv) (n : ℕ)
    (actHooks gradHooks : ℕ → Tensor4) (logit : Tensor2) (b : ℕ) (invert : Bool)
    (hb : 1 < b) :
    fastCAMCall cfg env n actHooks gradHooks logit b invert
      = .error "TypeError: _forward_bsize_N() takes 1 positional argument but 4 were given" := by
  unfold fastCAMCall
  rw [if_neg (by omega : ¬ b = 1)]

/-- C7 witness: batch size two on a concrete configuration. -/
theorem fastcam_batch_gt_one_raises_witness :
    fastCAMCall ⟨"V2", false, none, false⟩ idEnv 1 (fun _ => onesT4 2 1 1 1)
        (fun _ => onesT4 2 1 1 1) ⟨2, 3, fun _ _ => 0⟩ 2 false
      = .error "TypeError: _forward_bsize_N() takes 1 positional argument but 4 were given" :=
  fastcam_batch_gt_one_raises ⟨"V2", false, none, false⟩ idEnv 1
    (fun _ => onesT4 2 1 1 1) (fun _ => onesT4 2 1 1 1) ⟨2, 3, fun _ _ => 0⟩ 2 false
    (by decide)

/-- C8: with variant V0 backward capture is disabled, no gradient hook exists and
the loop-local gradients variable is never bound; requesting invert therefore
raises at `gradients *= -1` (maps.py 583-584) on the first layer, and no map is
produced. -/
theorem fastcam_v0_invert_raises (cfg : FastCAMCfg) (env : TorchEnv) (n : ℕ)
    (actHooks gradHooks : ℕ → Tensor4) (logit : Tensor2)
    (hm : cfg.method = "V0") (hn : 0 < n) :
    fastCAMCall cfg env n actHooks gradHooks logit 1 true
      = .error "UnboundLocalError: local variable gradients referenced before assignment" := by
  have hbwd : cfg.bwdCapture = false := by
    simp [FastCAMCfg.bwdCapture, hm]
  have hproc : ∀ i : ℕ, processLayer cfg env true (gradHooks i) (actHooks i)
      = Except.error "UnboundLocalError: local variable gradients referenced before assignment" := by
    intro i
    simp [processLayer, layerSaliency, hbwd, except_error_bind]
  obtain ⟨m, rfl⟩ : ∃ m, n = m + 1 := ⟨n - 1, by omega⟩
  unfold fastCAMCall
  rw [if_pos rfl, List.range_succ_eq_map, List.mapM_cons]
  simp [hproc, except_error_bind]

/-- C8 witness: variant V0 with invert on one layer. -/
theorem fastcam_v0_invert_raises_witness :
    fastCAMCall ⟨"V0", false, none, false⟩ idEnv 1 (fun _ => onesT4 1 1 1 1)
        (fun _ => onesT4 1 1 1 1) ⟨1, 3, fun _ _ => 0⟩ 1 true
      = .error "UnboundLocalError: local variable gradients referenced before assignment" :=
  fastcam_v0_invert_raises ⟨"V0", false, none, false⟩ idEnv 1
    (fun _ => onesT4 1 1 1 1) (fun _ => onesT4 1 1 1 1) ⟨1, 3, fun _ _ => 0⟩ rfl
    (by decide)

/-- C9 counterexample: a concrete single-example V2 call (grad_pooling None,
pos_neg_map False) on two captured layers of spatial size 4x4 returns a list of
two per-layer maps of shape 1x4x4 together with the 1x3 logits; no combined
1x224x224 map exists in the output, refuting the claimed output shape. -/
theorem fastcam_no_combined_map_counterexample :
    ((fastCAMCall ⟨"V2", false, none, false⟩ idEnv 2 (fun _ => onesT4 1 2 4 4)
          (fun _ => onesT4 1 2 4 4) ⟨1, 3, fun _ _ => 0⟩ 1 false).toOption.map
        (fun r => (r.1.map Tensor3.shape, r.2.b, r.2.n)))
      = some ([(1, 4, 4), (1, 4, 4)], 1, 3)
    ∧ ¬ ((1, 4, 4) : ℕ × ℕ × ℕ) = (1, 224, 224) := by decide

/-- dispatch of variant V2 on bound gradients and activations (maps.py 613-617):
the per-channel mean gradient is used directly as a broadcast weight. -/
theorem variantSaliency_v2 (g a : Tensor4) :
    variantSaliency "V2" (some g) (some a) = .ok (mulBK (meanUV g) a) := rfl

/-- C9 (amended): a single-example call with method V2, grad_pooling None and
pos_neg_map False succeeds and returns the unchanged logits together with one
saliency map per configured layer, each of that layer's own batch and spatial
size; FastCAM.__call__ applies no combiner and no resize, so no combined
output-size map is produced. -/
theorem fastcam_per_layer_maps (cfg : FastCAMCfg) (env : TorchEnv) (n : ℕ)
    (actHooks gradHooks : ℕ → Tensor4) (logit : Tensor2) (invert : Bool)
    (hm : cfg.method = "V2") (hgp : cfg.grad_pooling = none)
    (hpn : cfg.pos_neg_map = false)
    (hnorm : ∀ c t, (env.normApply c t).shape = t.shape) :
    ∃ maps : List Tensor3,
      fastCAMCall cfg env n actHooks gradHooks logit 1 invert = .ok (maps, logit)
      ∧ maps.length = n
      ∧ ∀ i (hi : i < maps.length),
          (maps.get ⟨i, hi⟩).shape
            = ((actHooks i).b, (actHooks i).u, (actHooks i).v) := by
  have hfwd : cfg.fwdCapture = true := by
    simp [FastCAMCfg.fwdCapture, hm]
  have hbwd : cfg.bwdCapture = true := by
    simp [FastCAMCfg.bwdCapture, hm]
  have hfin : ∀ (smap : Tensor4) (b u v : ℕ),
      smap.b = b → smap.u = u → smap.v = v →
      ∃ t : Tensor3,
        finalizeMap cfg.pos_neg_map env.log2q
            (env.normApply (normChoice cfg.pos_neg_map)) smap b u v
          = .ok t ∧ t.shape = (b, u, v) := by
    intro smap b u v hsb hsu hsv
    rw [hpn]
    have hsh : (env.normApply (normChoice false)
        (smoeForward env.log2q (relu4 smap))).shape = (b, u, v) := by
      rw [hnorm]
      show (smap.b, smap.u, smap.v) = (b, u, v)
      rw [hsb, hsu, hsv]
    have hb : (env.normApply (normChoice false)
        (smoeForward env.log2q (relu4 smap))).b = b := congrArg (fun p => p.1) hsh
    have hu : (env.normApply (normChoice false)
        (smoeForward env.log2q (relu4 smap))).u = u := congrArg (fun p => p.2.1) hsh
    have hv : (env.normApply (normChoice false)
        (smoeForward env.log2q (relu4 smap))).v = v := congrArg (fun p => p.2.2) hsh
    refine ⟨⟨b, u, v, (env.normApply (normChoice false)
        (smoeForward env.log2q (relu4 smap))).data⟩, ?_, rfl⟩
    simp only [finalizeMap, Bool.not_false, if_true]
    unfold view3
    rw [if_pos ⟨hb, hu, hv⟩]
  have hlayer : ∀ i : ℕ, ∃ t : Tensor3,
      processLayer cfg env invert (gradHooks i) (actHooks i) = .ok t
      ∧ t.shape = ((actHooks i).b, (actHooks i).u, (actHooks i).v) := by
    intro i
    have hpool : poolGradients env cfg.grad_pooling (gradHooks i) = gradHooks i := by
      simp [poolGradients, hgp]
    have hsal : ∃ G : Tensor4,
        layerSaliency cfg env invert (gradHooks i) (actHooks i)
          = .ok (mulBK (meanUV G) (relu4 (actHooks i))) := by
      cases invert with
      | false =>
        cases hgpp : cfg.use_gpp with
        | false =>
          refine ⟨gradHooks i, ?_⟩
          simp [layerSaliency, hbwd, hfwd, hpool, hgpp, hm, except_pure_bind,
            variantSaliency_v2]
        | true =>
          refine ⟨gppAdjust (gradHooks i) (relu4 (actHooks i)), ?_⟩
          simp [layerSaliency, hbwd, hfwd, hpool, hgpp, hm, except_pure_bind,
            variantSaliency_v2]
      | true =>
        cases hgpp : cfg.use_gpp with
        | false =>
          refine ⟨scal4 (-1) (gradHooks i), ?_⟩
          simp [layerSaliency, hbwd, hfwd, hpool, hgpp, hm, except_pure_bind,
            variantSaliency_v2]
        | true =>
          refine ⟨gppAdjust (scal4 (-1) (gradHooks i)) (relu4 (actHooks i)), ?_⟩
          simp [layerSaliency, hbwd, hfwd, hpool, hgpp, hm, except_pure_bind,
            variantSaliency_v2]
    obtain ⟨G, hG⟩ := hsal
    obtain ⟨t, ht, hsh⟩ := hfin (mulBK (meanUV G) (relu4 (actHooks i)))
      (actHooks i).b (actHooks i).u (actHooks i).v rfl rfl rfl
    refine ⟨t, ?_, hsh⟩
    simp only [processLayer, hG, except_ok_bind, hfwd]
    exact ht
  obtain ⟨maps, hmapM, hlen, hP⟩ := mapM_ok_exists
    (fun i => processLayer cfg env invert (gradHooks i) (actHooks i)) (List.range n)
    (fun i t => t.shape = ((actHooks i).b, (actHooks i).u, (actHooks i).v))
    (fun i _ => hlayer i)
  refine ⟨maps, ?_, by simpa using hlen, ?_⟩
  · unfold fastCAMCall
    rw [if_pos rfl, hmapM]
    rfl
  · intro i hi
    have hi2 : i < (List.range n).length := by
      rw [List.length_range]
      rw [hlen, List.length_range] at hi
      exact hi
    have h3 := hP i hi2 hi
    rwa [List.get_range] at h3

/-- C9 witness: the concrete single-layer V2 configuration. -/
theorem fastcam_per_layer_maps_witness :
    ∃ maps : List Tensor3,
      fastCAMCall ⟨"V2", false, none, false⟩ idEnv 1 (fun _ => onesT4 1 2 4 4)
          (fun _ => onesT4 1 2 4 4) ⟨1, 3, fun _ _ => 0⟩ 1 false
        = .ok (maps, ⟨1, 3, fun _ _ => 0⟩)
      ∧ maps.length = 1
      ∧ ∀ i (hi : i < maps.length), (maps.get ⟨i, hi⟩).shape = (1, 4, 4) :=
  fastcam_per_layer_maps ⟨"V2", false, none, false⟩ idEnv 1 (fun _ => onesT4 1 2 4 4)
    (fun _ => onesT4 1 2 4 4) ⟨1, 3, fun _ _ => 0⟩ false rfl rfl rfl (fun _ _ => rfl)

/-- C10: the normalizer is fixed at construction by the pos_neg_map flag,
GammaNorm2D when it is off and Normalize2D when it is on; their declared output
ranges differ; and every per-layer map an orchestrator call produces is (a view
of) an output of exactly the normalizer selected by that flag. -/
theorem fastcam_normalizer_selection :
    normChoice false = NormChoice.gammaNorm2D
    ∧ normChoice true = NormChoice.normalize2D
    ∧ declaredRange NormChoice.gammaNorm2D ≠ declaredRange NormChoice.normalize2D
    ∧ ∀ (cfg : FastCAMCfg) (env : TorchEnv) (invert : Bool)
        (gradHook actHook : Tensor4) (m : Tensor3),
        processLayer cfg env invert gradHook actHook = .ok m →
        ∃ (s : Tensor3) (b u v : ℕ),
          view3 (env.normApply (normChoice cfg.pos_neg_map) s) b u v = .ok m := by
  refine ⟨rfl, rfl, ?_, ?_⟩
  · intro h
    simp only [declaredRange] at h
    have h2 : (2 : ℚ) ∈ Set.Icc (0 : ℚ) 1 := by
      rw [h]
      exact Set.mem_univ _
    rw [Set.mem_Icc] at h2
    linarith [h2.2]
  · intro cfg env invert gradHook actHook m hok
    simp only [processLayer] at hok
    obtain ⟨sv, hs, hok2⟩ := except_bind_eq_ok hok
    cases hpm : cfg.pos_neg_map with
    | false =>
      rw [hpm] at hok2
      simp only [finalizeMap, Bool.not_false, if_true] at hok2
      exact ⟨_, _, _, _, hok2⟩
    | true =>
      rw [hpm] at hok2
      simp only [finalizeMap, Bool.not_true, if_false] at hok2
      exact ⟨_, _, _, _, hok2⟩

/-- C10 witness: a concrete V0 call whose normalizer output is fully explicit. -/
theorem fastcam_normalizer_selection_witness :
    ∃ (s : Tensor3) (b u v : ℕ),
      view3 (constNormEnv.normApply (normChoice false) s) b u v
        = .ok (⟨1, 1, 1, fun _ _ _ => 1⟩ : Tensor3) :=
  fastcam_normalizer_selection.2.2.2 ⟨"V0", false, none, false⟩ constNormEnv false
    (onesT4 1 1 1 1) (onesT4 1 1 1 1) ⟨1, 1, 1, fun _ _ _ => 1⟩ rfl
